import Mathlib

/-
Verification of the resumable WGS batch fetch-and-normalize pipeline
(taxid2wgs.py) against its natural-language specification.

The script's `main` is a single linear function; we embed its pieces as pure
Lean functions:

  * the FASTA header normalizer (taxid2wgs.py lines 339-377), including a
    faithful model of the regular expression
    `(<proj>(?:\d){5,8}\.\d)\|([\w\W]*)$` used with `re.search`;
  * the retry-wrapped transport loop (lines 258-285 and 297-334) over the
    fixed schedule `RETRY_TIMES`;
  * the startup state check on the ledger (.tmp) and output (.fa) files
    (lines 156-186);
  * the project-loop driver (lines 203-413) over an abstracted remote
    service, tracking filesystem state, network operations, the processing
    order and the ledger writes;
  * the event order of `download_file` (lines 46-64), which passes
    `target=bkg_download()` -- note the call -- to `threading.Thread`.

Machine strings are embedded as `List Char`; Python byte/line I/O is kept at
the granularity of whole lines, which is how the script reads and writes
(readlines / write of single-line strings).  `\d` and `str.strip()` are
modelled over their ASCII behaviour, which coincides with Python's on the
ASCII data these files contain.
-/

/-! ### Character and string helpers (Python `str` operations) -/

/-- ASCII whitespace recognized by Python's `str.strip()` / `str.rstrip()`. -/
def isSpaceCh (c : Char) : Bool :=
  c == ' ' || c == '\t' || c == '\n' || c == '\r' || c == '\x0b' || c == '\x0c'

/-- ASCII decimal digit, the relevant case of the regex class `\d`. -/
def isDigitCh (c : Char) : Bool :=
  '0' ≤ c && c ≤ '9'

/-- Python `s.startswith(p)` on character lists (`p` is the first argument). -/
def pyStartswith : List Char → List Char → Bool
  | [], _ => true
  | _ :: _, [] => false
  | p :: ps, c :: cs => p == c && pyStartswith ps cs

/-- Python substring test `needle in hay`. -/
def pyContains (needle : List Char) : List Char → Bool
  | [] => needle.isEmpty
  | c :: rest => pyStartswith needle (c :: rest) || pyContains needle rest

/-- Python `s.endswith(p)`. -/
def pyEndswith (needle hay : List Char) : Bool :=
  pyStartswith needle.reverse hay.reverse

/-- Python `s.rstrip()` (trailing whitespace removed). -/
def pyRstripChars (s : List Char) : List Char :=
  (s.reverse.dropWhile isSpaceCh).reverse

/-- Python `s.strip()` (leading and trailing whitespace removed). -/
def pyStripChars (s : List Char) : List Char :=
  pyRstripChars (s.dropWhile isSpaceCh)

/-- `str.rstrip` lifted to `String`, as used on the ledger lines
(`proj.rstrip()` at taxid2wgs.py line 164/167). -/
def pyRstrip (s : String) : String :=
  String.mk (pyRstripChars s.data)

/-! ### The header regular expression

`re.compile(r'(%s(?:\d){5,8}\.\d)\|([\w\W]*)$' % proj)` searched with
`re.search` (leftmost match; the digit counter `{5,8}` is greedy, so 8 digits
are tried first, backtracking down to 5; `[\w\W]*` then takes the whole rest
of the line, and `$` matches at the very end). -/

/-- Take exactly `k` leading digits, returning them and the rest. -/
def takeDigits : Nat → List Char → Option (List Char × List Char)
  | 0, s => some ([], s)
  | _ + 1, [] => none
  | k + 1, c :: rest =>
    if isDigitCh c then
      match takeDigits k rest with
      | some (ds, r) => some (c :: ds, r)
      | none => none
    else none

/-- After the digit block: match `\.\d\|`; on success group 1 is
`proj ++ digits ++ "." ++ d` and group 2 is the remainder of the line. -/
def tryAfterDigits (proj ds rest : List Char) : Option (List Char × List Char) :=
  match rest with
  | p :: d :: b :: desc =>
    if p == '.' && isDigitCh d && b == '|' then
      some (proj ++ ds ++ [p, d], desc)
    else none
  | _ => none

/-- Backtracking over the greedy counter `(?:\d){5,8}`: try the digit counts
in the order 8, 7, 6, 5. -/
def tryCounts (proj s : List Char) : List Nat → Option (List Char × List Char)
  | [] => none
  | k :: ks =>
    match takeDigits k s with
    | some (ds, rest) =>
      match tryAfterDigits proj ds rest with
      | some r => some r
      | none => tryCounts proj s ks
    | none => tryCounts proj s ks

/-- Try the whole pattern anchored at the current position. -/
def tryPattern (proj s : List Char) : Option (List Char × List Char) :=
  if pyStartswith proj s then tryCounts proj (s.drop proj.length) [8, 7, 6, 5]
  else none

/-- `re.search`: leftmost position at which the pattern matches. -/
def reSearch (proj : List Char) : List Char → Option (List Char × List Char)
  | [] => tryPattern proj []
  | c :: rest =>
    match tryPattern proj (c :: rest) with
    | some r => some r
    | none => reSearch proj rest

/-- The canonical header written for one matched header line:
`'>%s %s\n' % (match.group(1), match.group(2).strip())`
(taxid2wgs.py lines 358-361 and 367-371).  `none` models `re.search`
returning `None`, on which the script's `match.group(1)` raises an uncaught
`AttributeError`. -/
def canonicalHeader (proj line : List Char) : Option (List Char) :=
  match reSearch proj line with
  | some (accession, description) =>
    some (['>'] ++ accession ++ [' '] ++ pyStripChars description ++ ['\n'])
  | none => none

/-! ### The batch normalizer (taxid2wgs.py lines 339-377) -/

/-- Failure modes of processing one decompressed batch. `emptyBatch` is the
`EOFError` raised at line 344 (handled: exit code 4); `attrError` is the
uncaught `AttributeError` from `match.group` on a non-matching header;
`indexError` is the uncaught `IndexError` from `line[0]` on an empty string
(unreachable for `readlines` output, kept for totality). -/
inductive PErr
  | emptyBatch
  | attrError
  | indexError
deriving DecidableEq, Repr

/-- One iteration of the line loop (lines 363-371): sequence lines are copied
verbatim, lines starting with `>` are rewritten via the pattern. -/
def normLine (proj line : List Char) : Except PErr (List Char) :=
  match line with
  | [] => .error .indexError
  | c :: rest =>
    if c ≠ '>' then .ok (c :: rest)
    else
      match canonicalHeader proj (c :: rest) with
      | some h => .ok h
      | none => .error .attrError

/-- Effect-free rendering of the loop's sequence of `wgs.write` calls:
stops at the first error (the script dies there; its earlier writes are not
needed by any claim below). -/
def mapExcept (f : α → Except ε β) : List α → Except ε (List β)
  | [] => .ok []
  | a :: rest =>
    match f a with
    | .error e => .error e
    | .ok b =>
      match mapExcept f rest with
      | .error e => .error e
      | .ok bs => .ok (b :: bs)

/-- Lines appended to the output accumulator for one decompressed batch
(taxid2wgs.py lines 339-377).  An empty batch raises `EOFError` (line 344).
If the project id occurs in the first 7 characters of the first line the
batch is in the new format and is written through unchanged (lines 353-354).
Otherwise the first line's canonical header is written (lines 358-361) and
then the loop at lines 363-371 runs over *all* lines, the first included. -/
def processBatch (proj : List Char) (all_lines : List (List Char)) :
    Except PErr (List (List Char)) :=
  match all_lines with
  | [] => .error .emptyBatch
  | line1 :: rest =>
    if pyContains proj (line1.take 7) then .ok (line1 :: rest)
    else
      match canonicalHeader proj line1 with
      | none => .error .attrError
      | some h1 =>
        match mapExcept (normLine proj) (line1 :: rest) with
        | .error e => .error e
        | .ok outs => .ok (h1 :: outs)

/-- A FASTA header line (first character `>`), used to count headers. -/
def isHeaderLine (line : List Char) : Bool :=
  match line with
  | [] => false
  | c :: _ => c == '>'

/-! ### Fatal conditions and exit codes

The script terminates through `exit(n)` at fixed sites; each constructor
names one fatal condition and `exitCode` records the code at its site. -/

/-- The fatal conditions of taxid2wgs.py with an explicit `exit(n)` site. -/
inductive FatalCond
  | staleTmpNoFlag    -- ledger exists, no resume/download/force: exit(2), line 178
  | staleTmpNoFasta   -- resume: non-empty ledger but no FASTA file: exit(1), line 173
  | staleFastaNoTmp   -- FASTA exists but ledger missing, no force: exit(3), line 186
  | corruptFile       -- empty/corrupt decompressed batch: exit(4), line 350
  | exhaustedRetries  -- all retries failed: exit(5), lines 285 and 334
  | userInterrupt     -- KeyboardInterrupt: exit(9), lines 277 and 322
  | ledgerCleanupFail -- ledger could not be removed at the end: exit(5), line 413
deriving DecidableEq, Repr

/-- The exit code used at each fatal site of taxid2wgs.py. -/
def exitCode : FatalCond → Nat
  | .staleTmpNoFlag => 2
  | .staleTmpNoFasta => 1
  | .staleFastaNoTmp => 3
  | .corruptFile => 4
  | .exhaustedRetries => 5
  | .userInterrupt => 9
  | .ledgerCleanupFail => 5

/-! ### The retry-wrapped transport (taxid2wgs.py lines 34-35, 258-285, 297-334) -/

/-- `RETRY_TIMES = [0, 5, 15, 30, 60, 120]` (line 34). -/
def RETRY_TIMES : List Nat := [0, 5, 15, 30, 60, 120]

/-- Python exception kinds relevant to the retry loop. -/
inductive PyExc
  | osError
  | eofError
  | errorTemp
  | errorProto
  | errorReply
  | keyboardInterrupt
  | otherExc
deriving DecidableEq, Repr

/-- `EXCEPTS = (OSError, EOFError, error_temp, error_proto, error_reply)`
(line 35): the fixed retryable set. -/
def EXCEPTS : List PyExc :=
  [.osError, .eofError, .errorTemp, .errorProto, .errorReply]

/-- Whether an exception is caught by the `except EXCEPTS` clause. -/
def isRetryable (e : PyExc) : Bool :=
  EXCEPTS.contains e

/-- Outcome of one attempt of the wrapped operation (indexed by attempt
number starting at 0). -/
inductive PyAttempt (α : Type)
  | ok (a : α)
  | exc (e : PyExc)

/-- Final outcome of the retry loop. -/
inductive RetryOutcome (α : Type)
  | success (a : α)
  | exhausted (code : Nat)    -- for-else branch: exit(5)
  | interrupted (code : Nat)  -- KeyboardInterrupt: exit(9)
  | uncaught (e : PyExc)      -- exception not matched by any handler
deriving DecidableEq, Repr

/-- Result of the retry loop together with the number of attempts made and
the sequence of `time.sleep` durations performed (in order, one before each
attempt). -/
structure RetryResult (α : Type) where
  outcome : RetryOutcome α
  attempts : Nat
  sleeps : List Nat
deriving DecidableEq, Repr

/-- `for retry_time in RETRY_TIMES: time.sleep(retry_time); try: ...`
(lines 258-285 / 297-334).  `i` is the number of attempts already made and
`acc` the sleeps already performed. -/
def retryAux (op : Nat → PyAttempt α) : List Nat → Nat → List Nat → RetryResult α
  | [], i, acc => ⟨.exhausted 5, i, acc⟩
  | t :: rest, i, acc =>
    match op i with
    | .ok a => ⟨.success a, i + 1, acc ++ [t]⟩
    | .exc e =>
      if isRetryable e then retryAux op rest (i + 1) (acc ++ [t])
      else if e = .keyboardInterrupt then ⟨.interrupted 9, i + 1, acc ++ [t]⟩
      else ⟨.uncaught e, i + 1, acc ++ [t]⟩

/-- The retry-wrapped transport operation over the fixed schedule. -/
def retryLoop (op : Nat → PyAttempt α) : RetryResult α :=
  retryAux op RETRY_TIMES 0 []

/-! ### Event order of `download_file` (taxid2wgs.py lines 46-64)

`threading.Thread(target=bkg_download())` *calls* `bkg_download()` while
building the argument list, so the whole transfer runs synchronously in the
calling thread, and the `Thread` is constructed with `target=None`.  The
events are recorded in program order. -/

/-- Events of one `download_file` call. -/
inductive DlEv
  | typeI             -- ftp.voidcmd('TYPE I')
  | retrCmd           -- ftp.transfercmd('RETR ' + filename)
  | recvChunk (i : Nat) -- sckt.recv(2**25) returning data
  | sockClose         -- sckt.close()
  | threadStart       -- thrd.start()
  | threadJoin        -- thrd.join(30) returning
  | noopCmd           -- ftp.voidcmd('NOOP')
deriving DecidableEq, Repr

/-- The events produced by evaluating `bkg_download()` (lines 48-58): the
entire data transfer, with `chunks` non-empty chunks received. -/
def bkgDownloadEvents (chunks : Nat) : List DlEv :=
  [.typeI, .retrCmd] ++ (List.range chunks).map DlEv.recvChunk ++ [.sockClose]

/-- The keep-alive loop at lines 62-64 performs some number of
join-then-NOOP iterations (the thread, having `target=None`, terminates at
once; `noops` covers every possible schedule). -/
def keepAliveEvents (noops : Nat) : List DlEv :=
  (List.replicate noops [DlEv.threadJoin, DlEv.noopCmd]).flatten

/-- Full event order of `download_file(ftp, filename)`: because the argument
of `target=` is the *call* `bkg_download()`, the transfer events all occur
before `thrd.start()`. -/
def downloadFileEvents (chunks noops : Nat) : List DlEv :=
  bkgDownloadEvents chunks ++ [DlEv.threadStart] ++ keepAliveEvents noops

/-! ### Filesystem state, startup check and the batch driver
(taxid2wgs.py lines 147-237 and 229-413)

The remote services (the HTTPS project lookup and the FTP server) are
abstracted as a `Remote` record; a listing or retrieval that would exhaust
the retry schedule is represented by `none` / `false` (the driver then exits
with code 5, as at lines 285/334).  The filesystem is the ledger (.tmp)
file, the output (.fa) file and the set of data files on disk. -/

/-- `FSA_WGS_END = '.fsa_nt.gz'` (line 37). -/
def FSA_WGS_END : String := ".fsa_nt.gz"

/-- Local filesystem state.  The content of the ledger and of the output
file is kept as the list of lines written (every write of the script is a
whole line); `tmpContent`/`fstContent` are meaningful only while
`tmpExists`/`fstExists` hold and are `[]` otherwise. -/
structure FsState where
  tmpExists : Bool
  tmpContent : List String
  fstExists : Bool
  fstContent : List (List Char)
  disk : List String
deriving DecidableEq, Repr

/-- The abstracted remote world of one run. -/
structure Remote where
  projects : List String                      -- taxid2wgs.cgi answer, split in lines
  listing : String → Option (List String)     -- ftp.nlst() per project; none = retries exhausted
  getFileOk : String → Bool                   -- file retrieval transport outcome
  fileLines : String → List (List Char)       -- decompressed lines of a data file

/-- Network operations, in order of execution. -/
inductive NetOp
  | httpProjectList
  | ftpList (proj : String)
  | ftpRetr (filename : String)
deriving DecidableEq, Repr

/-- Abnormal terminations of a run. -/
inductive Abort
  | fatal (code : Nat)  -- explicit exit(n)
  | crashed             -- uncaught Python exception
deriving DecidableEq, Repr

/-- How a run ended. -/
inductive ExitKind
  | success
  | aborted (a : Abort)
deriving DecidableEq, Repr

/-- Result of the startup state check. -/
inductive StartupResult
  | proceed (parsed : List String) (fs : FsState)
  | fatal (code : Nat)
deriving DecidableEq, Repr

/-- The startup check on the ledger and output files (lines 158-186):
run before any network access.  `force` removes the ledger (or, failing
that, the output file); `just_download` reads the ledger and proceeds;
`resume` reads the ledger and insists the output file exists when the
ledger is non-empty (exit 1); otherwise a leftover ledger is fatal (exit 2)
and a leftover output file without ledger is fatal (exit 3). -/
def startupCheck (force just_download resume : Bool) (fs : FsState) : StartupResult :=
  if fs.tmpExists then
    if force then .proceed [] { fs with tmpExists := false, tmpContent := [] }
    else if just_download then .proceed (fs.tmpContent.map pyRstrip) fs
    else if resume then
      let parsed := fs.tmpContent.map pyRstrip
      if parsed ≠ [] ∧ fs.fstExists = false then .fatal 1
      else .proceed parsed fs
    else .fatal 2
  else if fs.fstExists then
    if force then .proceed [] { fs with fstExists := false, fstContent := [] }
    else .fatal 3
  else .proceed [] fs

/-- Filesystem-and-network state threaded through the per-file loop. -/
structure IoSt where
  fs : FsState
  net : List NetOp
deriving DecidableEq, Repr

/-- Full loop state: additionally the projects completed (in order) and the
lines passed to `tmp.write` (in order). -/
structure LoopSt where
  fs : FsState
  net : List NetOp
  processed : List String
  ledgerWrites : List String
deriving DecidableEq, Repr

/-- Result of a whole run. -/
structure RunResult where
  exit : ExitKind
  st : LoopSt
deriving DecidableEq, Repr

/-- Writing one line to the output handle: in download-only mode the handle
is `/dev/null` (line 232), so the write is dropped. -/
def writeFst (just_download : Bool) (fs : FsState) (ls : List (List Char)) : FsState :=
  if just_download then fs else { fs with fstContent := fs.fstContent ++ ls }

/-- Writing one line to the ledger handle (line 387); `/dev/null` in
download-only mode. -/
def writeTmp (just_download : Bool) (fs : FsState) (line : String) : FsState :=
  if just_download then fs else { fs with tmpContent := fs.tmpContent ++ [line] }

/-- The download step for one data file (lines 289-335): skip when the file
is on disk (unless forcing), otherwise retrieve it over the retry-wrapped
transport (exit 5 if every retry fails, with the partial file removed). -/
def downloadStep (force : Bool) (remote : Remote) (io : IoSt) (filename : String) :
    Except (Abort × IoSt) IoSt :=
  if force = false ∧ io.fs.disk.contains filename then .ok io
  else
    let io1 : IoSt := { io with net := io.net ++ [NetOp.ftpRetr filename] }
    if remote.getFileOk filename then
      .ok { io1 with fs := { io1.fs with disk := io1.fs.disk ++ [filename] } }
    else .error (.fatal 5, io1)

/-- Handling of one data file of a project (lines 289-377): the download
step; then, unless in download-only mode (`continue` at line 338),
decompress and normalize the batch into the output accumulator (exit 4 on
an empty batch; a header that defeats the pattern is an uncaught
`AttributeError`). -/
def procFile (force just_download : Bool) (remote : Remote) (proj : String)
    (io : IoSt) (filename : String) : Except (Abort × IoSt) IoSt :=
  match downloadStep force remote io filename with
  | .error e => .error e
  | .ok io2 =>
    if just_download then .ok io2
    else
      match processBatch proj.data (remote.fileLines filename) with
      | .error .emptyBatch => .error (.fatal 4, io2)
      | .error _ => .error (.crashed, io2)
      | .ok outs => .ok { io2 with fs := writeFst just_download io2.fs outs }

/-- The per-file loop of one project, in listing order. -/
def runFiles (force just_download : Bool) (remote : Remote) (proj : String) :
    List String → IoSt → Except (Abort × IoSt) IoSt
  | [], io => .ok io
  | f :: rest, io =>
    match procFile force just_download remote proj io f with
    | .error e => .error e
    | .ok io' => runFiles force just_download remote proj rest io'

/-- Determination of the files to fetch for a project (lines 239-287): in
resume mode, local files whose name starts with the project id stand in for
the remote listing (lines 242-248); otherwise the project's remote
directory is listed (exit 5 if every retry fails) and the files with the
WGS suffix are kept (lines 286-287). -/
def projListing (resume : Bool) (remote : Remote) (previous : List String)
    (proj : String) (io0 : IoSt) : Except (Abort × IoSt) (List String × IoSt) :=
  let downloaded : List String :=
    if resume then previous.filter (fun f => pyStartswith proj.data f.data) else []
  if downloaded.isEmpty then
    let io1 : IoSt := { io0 with net := io0.net ++ [NetOp.ftpList proj] }
    match remote.listing proj with
    | none => .error (.fatal 5, io1)
    | some files => .ok (files.filter (fun f => pyEndswith FSA_WGS_END.data f.data), io1)
  else .ok (downloaded, io0)

/-- Handling of one project (lines 237-388): the files to fetch are
determined, each is downloaded/parsed in listing order, and finally the
project id is appended to the ledger and flushed (lines 387-388). -/
def procProject (force just_download resume : Bool) (remote : Remote)
    (previous : List String) (st : LoopSt) (proj : String) :
    Except (Abort × LoopSt) LoopSt :=
  match projListing resume remote previous proj ⟨st.fs, st.net⟩ with
  | .error (k, io) => .error (k, ⟨io.fs, io.net, st.processed, st.ledgerWrites⟩)
  | .ok (to_download, io1) =>
    match runFiles force just_download remote proj to_download io1 with
    | .error (k, io) => .error (k, ⟨io.fs, io.net, st.processed, st.ledgerWrites⟩)
    | .ok io2 =>
      .ok ⟨writeTmp just_download io2.fs (proj ++ "\n"), io2.net,
           st.processed ++ [proj], st.ledgerWrites ++ [proj ++ "\n"]⟩

/-- The project loop (line 237), in sorted order. -/
def runProjects (force just_download resume : Bool) (remote : Remote)
    (previous : List String) : List String → LoopSt → Except (Abort × LoopSt) LoopSt
  | [], st => .ok st
  | p :: rest, st =>
    match procProject force just_download resume remote previous st p with
    | .error e => .error e
    | .ok st' => runProjects force just_download resume remote previous rest st'

/-- Python string comparison `a <= b`: lexicographic by code point (the
order Python uses on `str`, restricted to the data at hand). -/
def lexLe : List Char → List Char → Bool
  | [], _ => true
  | _ :: _, [] => false
  | a :: as1, b :: bs => if a = b then lexLe as1 bs else decide (a < b)

/-- `<=` on the embedded strings. -/
def pyStrLe (a b : String) : Bool :=
  lexLe a.data b.data

/-- `wgs_projects.sort(reverse=reverse)` (line 221).  Python's sort is a
stable comparison sort over the lexicographic string order; on a linear
order, where equal keys are identical strings, any stable sort is
extensionally insertion sort. -/
def pySort (reverse : Bool) (l : List String) : List String :=
  if reverse then List.insertionSort (fun a b : String => pyStrLe b a = true) l
  else List.insertionSort (fun a b : String => pyStrLe a b = true) l

/-- One whole run of taxid2wgs.py (`main`, lines 147-413) over an abstracted
remote.  Startup check first (before any network access); then the HTTPS
project lookup; projects already in the ledger are removed; if none remain
the run succeeds immediately (line 219); otherwise the remaining projects
are processed in sorted order, with the output and ledger handles opened in
append mode (creating the files) -- or bound to `/dev/null` in download-only
mode (line 232) -- and on completion the ledger is removed (line 409) unless
in download-only mode. -/
def runPipeline (force just_download resume reverse : Bool) (remote : Remote)
    (fs0 : FsState) : RunResult :=
  let previous := fs0.disk.filter (fun f => pyEndswith FSA_WGS_END.data f.data)
  match startupCheck force just_download resume fs0 with
  | .fatal c => ⟨.aborted (.fatal c), ⟨fs0, [], [], []⟩⟩
  | .proceed parsed fs1 =>
    let net0 : List NetOp := [NetOp.httpProjectList]
    let work0 := remote.projects.filter (fun p => decide (p ∉ parsed))
    if work0.isEmpty then ⟨.success, ⟨fs1, net0, [], []⟩⟩
    else
      let work := pySort reverse work0
      let fs2 := if just_download then fs1
                 else { fs1 with tmpExists := true, fstExists := true }
      match runProjects force just_download resume remote previous work
              ⟨fs2, net0, [], []⟩ with
      | .error (k, st) => ⟨.aborted k, st⟩
      | .ok st =>
        if just_download then ⟨.success, st⟩
        else ⟨.success, { st with fs := { st.fs with tmpExists := false, tmpContent := [] } }⟩

/-- Fixture: a remote world with one project holding one new-format data
file. -/
def remoteOne : Remote where
  projects := ["AAAA01"]
  listing := fun _ => some ["AAAA01.1.fsa_nt.gz"]
  getFileOk := fun _ => true
  fileLines := fun _ => [">AAAA01000001.1 Org\n".data, "ACGT\n".data]

/-- Fixture: an empty local filesystem. -/
def fsFresh : FsState := ⟨false, [], false, [], []⟩

/-! ### Remaining definitions: ledger view, result projections, fixtures -/

/-- The project ids recorded in the ledger file of a filesystem state (what
a later run's readlines-plus-rstrip would recover; `[]` when the file does
not exist). -/
def ledgerIds (fs : FsState) : List String :=
  if fs.tmpExists then fs.tmpContent.map pyRstrip else []

/-- The filesystem/network state carried by either outcome of the per-file
loop. -/
def exceptIo (r : Except (Abort × IoSt) IoSt) : IoSt :=
  match r with
  | .ok io => io
  | .error (_, io) => io

/-- The loop state carried by either outcome of the project loop. -/
def exceptSt (r : Except (Abort × LoopSt) LoopSt) : LoopSt :=
  match r with
  | .ok st => st
  | .error (_, st) => st

/-- `b` has the same ledger/output files (existence and content) as `a`. -/
def SameTmpFst (a b : FsState) : Prop :=
  b.tmpExists = a.tmpExists ∧ b.tmpContent = a.tmpContent ∧
  b.fstExists = a.fstExists ∧ b.fstContent = a.fstContent

/-- `b` has the same ledger/output file existence flags as `a`. -/
def SameExists (a b : FsState) : Prop :=
  b.tmpExists = a.tmpExists ∧ b.fstExists = a.fstExists

/-- The listing outcome carried by either result of `projListing`. -/
def exceptIoL (r : Except (Abort × IoSt) (List String × IoSt)) : IoSt :=
  match r with
  | .ok (_, io) => io
  | .error (_, io) => io

/-- Fixture: a remote world with two projects and no data files. -/
def remoteTwo : Remote where
  projects := ["BBBB01", "AAAA01"]
  listing := fun _ => some []
  getFileOk := fun _ => true
  fileLines := fun _ => []

/-! ### Claim theorems: the header normalizer -/

/-- C6: a decompressed batch whose first line contains the owning project
identifier within its first 7 characters is appended to the output
accumulator unchanged, regardless of the content of the following lines. -/
theorem canonical_passthrough (proj line1 : List Char) (rest : List (List Char))
    (h : pyContains proj (line1.take 7) = true) :
    processBatch proj (line1 :: rest) = .ok (line1 :: rest) := by
  simp [processBatch, h]

/-- Witness for `canonical_passthrough` at a concrete new-format batch. -/
theorem canonical_passthrough_witness :
    pyContains "AAAA01".data ((">AAAA01000001.1 Org\n".data).take 7) = true ∧
    processBatch "AAAA01".data [">AAAA01000001.1 Org\n".data, "ACGT\n".data] =
      .ok [">AAAA01000001.1 Org\n".data, "ACGT\n".data] :=
  ⟨by decide, canonical_passthrough "AAAA01".data ">AAAA01000001.1 Org\n".data
      ["ACGT\n".data] (by decide)⟩

/-- C1 (code bug): on an old-format batch the normalizer emits the canonical
header of the FIRST input header line twice -- once from the pre-loop write
at line 361 and once again when the loop at line 363 re-processes
`all_lines[0]` -- so the output is not one canonical header per record. -/
theorem normalizer_duplicates_first_header :
    processBatch "AAAA01".data
        [">gi|7|gb|AAAA01000001.1| Organism X\n".data, "ACGT\n".data] =
      .ok [">AAAA01000001.1 Organism X\n".data, ">AAAA01000001.1 Organism X\n".data,
           "ACGT\n".data] ∧
    List.count ">AAAA01000001.1 Organism X\n".data
        [">AAAA01000001.1 Organism X\n".data, ">AAAA01000001.1 Organism X\n".data,
         "ACGT\n".data] = 2 ∧
    List.countP isHeaderLine
        [">gi|7|gb|AAAA01000001.1| Organism X\n".data, "ACGT\n".data] = 1 :=
  ⟨rfl, by decide, by decide⟩

/-- C2 counterexample: with owning project identifier `PROJ0001`, the
pattern `PROJ0001(?:\d){5,8}\.\d\|` does not match the header line
`PROJ000012345.1|Some organism, complete genome` (the accession does not
extend `PROJ0001`), so `re.search` returns `None` and the script dies on
`match.group(1)` instead of emitting any line. -/
theorem header_example_projid_mismatch :
    processBatch "PROJ0001".data
        ["PROJ000012345.1|Some organism, complete genome\n".data] =
      .error .attrError := rfl

/-- C2 amended: with owning project identifier `PROJ0000` (so that the
accession `PROJ000012345.1` extends the project id as the pattern requires)
the normalizer emits `>PROJ000012345.1 Some organism, complete genome` to
the output accumulator (followed by the raw line, re-processed as a
sequence line by the loop over all lines). -/
theorem header_example_amended :
    processBatch "PROJ0000".data
        ["PROJ000012345.1|Some organism, complete genome\n".data] =
      .ok [">PROJ000012345.1 Some organism, complete genome\n".data,
           "PROJ000012345.1|Some organism, complete genome\n".data] := rfl

/-! ### Claim theorems: exit codes -/

/-- C5 counterexample: exhausted-retries (lines 285/334) and ledger-cleanup
failure (line 413) terminate with the SAME exit code 5, so the five listed
fatal conditions do not all have distinct exit codes. -/
theorem exit_code_collision :
    exitCode .exhaustedRetries = exitCode .ledgerCleanupFail ∧
    FatalCond.exhaustedRetries ≠ FatalCond.ledgerCleanupFail := by
  decide

/-- C5 amended: the stale-state conflicts (codes 2, 1, 3), corrupt-file (4),
exhausted-retries (5) and user interrupt (9) terminate with pairwise
distinct exit codes, but ledger-cleanup failure reuses code 5 of
exhausted-retries. -/
theorem exit_codes_amended :
    exitCode .staleTmpNoFlag = 2 ∧ exitCode .staleTmpNoFasta = 1 ∧
    exitCode .staleFastaNoTmp = 3 ∧ exitCode .corruptFile = 4 ∧
    exitCode .exhaustedRetries = 5 ∧ exitCode .userInterrupt = 9 ∧
    exitCode .ledgerCleanupFail = 5 ∧
    exitCode .staleTmpNoFlag ≠ exitCode .staleTmpNoFasta ∧
    exitCode .staleTmpNoFlag ≠ exitCode .staleFastaNoTmp ∧
    exitCode .staleTmpNoFasta ≠ exitCode .staleFastaNoTmp ∧
    exitCode .staleTmpNoFlag ≠ exitCode .corruptFile ∧
    exitCode .staleTmpNoFasta ≠ exitCode .corruptFile ∧
    exitCode .staleFastaNoTmp ≠ exitCode .corruptFile ∧
    exitCode .staleTmpNoFlag ≠ exitCode .exhaustedRetries ∧
    exitCode .staleTmpNoFasta ≠ exitCode .exhaustedRetries ∧
    exitCode .staleFastaNoTmp ≠ exitCode .exhaustedRetries ∧
    exitCode .staleTmpNoFlag ≠ exitCode .userInterrupt ∧
    exitCode .staleTmpNoFasta ≠ exitCode .userInterrupt ∧
    exitCode .staleFastaNoTmp ≠ exitCode .userInterrupt ∧
    exitCode .corruptFile ≠ exitCode .exhaustedRetries ∧
    exitCode .corruptFile ≠ exitCode .userInterrupt ∧
    exitCode .exhaustedRetries ≠ exitCode .userInterrupt ∧
    exitCode .ledgerCleanupFail = exitCode .exhaustedRetries := by
  decide

/-! ### Claim theorems: the download keep-alive thread -/

/-- C10 (code bug): `threading.Thread(target=bkg_download())` evaluates
`bkg_download()` while building the call, so the entire data transfer runs
in the calling thread before `thrd.start()`; the started thread has
`target=None`.  Consequently no `NOOP` is ever sent during the transfer:
every transfer event precedes `threadStart` and every `NOOP` follows it. -/
theorem download_transfer_precedes_thread (chunks noops : Nat) :
    downloadFileEvents chunks noops =
      bkgDownloadEvents chunks ++ DlEv.threadStart :: keepAliveEvents noops ∧
    (∀ e ∈ bkgDownloadEvents chunks, e ≠ DlEv.noopCmd) ∧
    (∀ i, DlEv.recvChunk i ∉ DlEv.threadStart :: keepAliveEvents noops) := by
  refine ⟨by simp [downloadFileEvents], ?_, ?_⟩
  · intro e he
    simp [bkgDownloadEvents] at he
    rcases he with h | h | ⟨i, _, h⟩ | h <;> subst h <;> simp
  · intro i h
    rcases List.mem_cons.mp h with h1 | h2
    · simp at h1
    · unfold keepAliveEvents at h2
      obtain ⟨l, hl, hmem⟩ := List.mem_flatten.mp h2
      obtain rfl := List.eq_of_mem_replicate hl
      simp at hmem

/-- Witness for `download_transfer_precedes_thread` at one chunk and one
keep-alive iteration. -/
theorem download_transfer_precedes_thread_witness :
    downloadFileEvents 1 1 =
      bkgDownloadEvents 1 ++ DlEv.threadStart :: keepAliveEvents 1 ∧
    DlEv.recvChunk 0 ∉ DlEv.threadStart :: keepAliveEvents 1 ∧
    DlEv.typeI ≠ DlEv.noopCmd :=
  ⟨(download_transfer_precedes_thread 1 1).1,
   (download_transfer_precedes_thread 1 1).2.2 0,
   (download_transfer_precedes_thread 1 1).2.1 DlEv.typeI (by decide)⟩

/-! ### Claim theorems: the retry-wrapped transport -/

/-- Shape of any retry-loop outcome: the attempts consumed never exceed the
remaining schedule, and exactly one sleep (the schedule entry) precedes each
attempt, in schedule order. -/
theorem retryAux_shape {α : Type} (op : Nat → PyAttempt α) :
    ∀ (ts : List Nat) (i : Nat) (acc : List Nat),
      i ≤ (retryAux op ts i acc).attempts ∧
      (retryAux op ts i acc).attempts - i ≤ ts.length ∧
      (retryAux op ts i acc).sleeps = acc ++ ts.take ((retryAux op ts i acc).attempts - i) := by
  intro ts
  induction ts with
  | nil => intro i acc; simp [retryAux]
  | cons t ts ih =>
    intro i acc
    cases he : op i with
    | ok a =>
      refine ⟨by simp [retryAux, he], by simp [retryAux, he], ?_⟩
      have h1 : (retryAux op (t :: ts) i acc).attempts = i + 1 := by simp [retryAux, he]
      have h2 : (retryAux op (t :: ts) i acc).sleeps = acc ++ [t] := by simp [retryAux, he]
      rw [h1, h2]
      have h3 : i + 1 - i = 1 := by omega
      rw [h3]
      simp
    | exc e =>
      by_cases hr : isRetryable e = true
      · have hstep : retryAux op (t :: ts) i acc = retryAux op ts (i + 1) (acc ++ [t]) := by
          simp [retryAux, he, hr]
        obtain ⟨ih1, ih2, ih3⟩ := ih (i + 1) (acc ++ [t])
        rw [hstep]
        refine ⟨by omega, by simp only [List.length_cons]; omega, ?_⟩
        rw [ih3]
        have hh : (retryAux op ts (i + 1) (acc ++ [t])).attempts - i
            = ((retryAux op ts (i + 1) (acc ++ [t])).attempts - (i + 1)) + 1 := by omega
        rw [hh, List.take_succ_cons, List.append_assoc, List.singleton_append]
      · have hstop : ∃ o, retryAux op (t :: ts) i acc = ⟨o, i + 1, acc ++ [t]⟩ := by
          by_cases hk : e = PyExc.keyboardInterrupt
          · subst hk; exact ⟨.interrupted 9, by simp [retryAux, he, hr]⟩
          · exact ⟨.uncaught e, by simp [retryAux, he, hr, hk]⟩
        obtain ⟨o, ho⟩ := hstop
        rw [ho]
        refine ⟨Nat.le_succ i, ?_, ?_⟩
        · show i + 1 - i ≤ (t :: ts).length
          simp only [List.length_cons]
          omega
        · show acc ++ [t] = acc ++ List.take (i + 1 - i) (t :: ts)
          have h3 : i + 1 - i = 1 := by omega
          rw [h3]
          simp

/-- If every attempt fails with a retryable error, the whole schedule is
consumed and the loop ends in the for-else branch (`exit(5)`). -/
theorem retryAux_allfail {α : Type} (op : Nat → PyAttempt α) :
    ∀ (ts : List Nat) (i : Nat) (acc : List Nat),
      (∀ j, i ≤ j → j < i + ts.length → ∃ e, op j = .exc e ∧ isRetryable e = true) →
      retryAux op ts i acc = ⟨.exhausted 5, i + ts.length, acc ++ ts⟩ := by
  intro ts
  induction ts with
  | nil => intro i acc _; simp [retryAux]
  | cons t ts ih =>
    intro i acc h
    obtain ⟨e, he, hr⟩ := h i (le_refl i) (by simp only [List.length_cons]; omega)
    have hstep : retryAux op (t :: ts) i acc = retryAux op ts (i + 1) (acc ++ [t]) := by
      simp [retryAux, he, hr]
    rw [hstep, ih (i + 1) (acc ++ [t])
      (fun j h1 h2 => h j (by omega) (by simp only [List.length_cons] at h2 ⊢; omega))]
    have h1 : i + 1 + ts.length = i + (ts.length + 1) := by omega
    simp [h1]

/-- C4: the retry-wrapped transport makes at most one attempt per entry of
the fixed schedule `[0, 5, 15, 30, 60, 120]` (so at most 6), sleeping each
entry's duration before the corresponding attempt; if every one of the 6
attempts fails with a retryable error the run terminates fatally with exit
code 5 after the full schedule, a code distinct from the content-corruption
exit; a non-retryable first error stops the loop after one attempt. -/
theorem retry_schedule_spec {α : Type} (op : Nat → PyAttempt α) :
    (retryLoop op).attempts ≤ RETRY_TIMES.length ∧
    (retryLoop op).sleeps = RETRY_TIMES.take (retryLoop op).attempts ∧
    ((∀ i, i < RETRY_TIMES.length → ∃ e, op i = .exc e ∧ isRetryable e = true) →
      retryLoop op = ⟨.exhausted (exitCode .exhaustedRetries), RETRY_TIMES.length, RETRY_TIMES⟩) ∧
    (∀ e, op 0 = .exc e → isRetryable e = false → (retryLoop op).attempts = 1) ∧
    exitCode .exhaustedRetries ≠ exitCode .corruptFile := by
  have hlr : retryLoop op = retryAux op RETRY_TIMES 0 [] := rfl
  obtain ⟨h1, h2, h3⟩ := retryAux_shape op RETRY_TIMES 0 []
  rw [hlr]
  refine ⟨by omega, by simpa using h3, ?_, ?_, by decide⟩
  · intro h
    have hall := retryAux_allfail op RETRY_TIMES 0 []
      (fun j _ hj2 => h j (by simpa using hj2))
    simpa [exitCode] using hall
  · intro e he hr
    by_cases hk : e = PyExc.keyboardInterrupt
    · subst hk; simp [retryLoop, RETRY_TIMES, retryAux, he, hr]
    · simp [retryLoop, RETRY_TIMES, retryAux, he, hr, hk]

/-- Witness for `retry_schedule_spec`: an operation failing every attempt
with `OSError` exhausts the whole schedule and exits with code 5. -/
theorem retry_schedule_spec_witness :
    retryLoop (fun _ => (PyAttempt.exc PyExc.osError : PyAttempt Unit)) =
      ⟨.exhausted (exitCode .exhaustedRetries), RETRY_TIMES.length, RETRY_TIMES⟩ :=
  (retry_schedule_spec (fun _ => (PyAttempt.exc PyExc.osError : PyAttempt Unit))).2.2.1
    (fun _ _ => ⟨PyExc.osError, rfl, rfl⟩)

/-! ### Driver lemmas -/

theorem SameTmpFst_refl (a : FsState) : SameTmpFst a a := ⟨rfl, rfl, rfl, rfl⟩

theorem SameTmpFst_trans {a b c : FsState} (h1 : SameTmpFst a b) (h2 : SameTmpFst b c) :
    SameTmpFst a c := by
  obtain ⟨x1, x2, x3, x4⟩ := h1
  obtain ⟨y1, y2, y3, y4⟩ := h2
  exact ⟨y1.trans x1, y2.trans x2, y3.trans x3, y4.trans x4⟩

theorem SameExists_of (h : SameTmpFst a b) : SameExists a b := ⟨h.1, h.2.2.1⟩

theorem SameExists_refl (a : FsState) : SameExists a a := ⟨rfl, rfl⟩

theorem SameExists_trans {a b c : FsState} (h1 : SameExists a b) (h2 : SameExists b c) :
    SameExists a c :=
  ⟨h2.1.trans h1.1, h2.2.trans h1.2⟩

/-- The download step never touches the ledger or output files (only the
network trace and the data files on disk). -/
theorem downloadStep_fs (force : Bool) (remote : Remote) (io : IoSt) (f : String) :
    SameTmpFst io.fs (exceptIo (downloadStep force remote io f)).fs := by
  unfold downloadStep
  split
  · exact SameTmpFst_refl _
  · by_cases hg : remote.getFileOk f = true <;> simp [hg, exceptIo, SameTmpFst]

/-- In download-only mode the per-file handling never touches the ledger or
output files. -/
theorem procFile_frame_jd (force : Bool) (remote : Remote) (proj : String)
    (io : IoSt) (f : String) :
    SameTmpFst io.fs (exceptIo (procFile force true remote proj io f)).fs := by
  have hd := downloadStep_fs force remote io f
  unfold procFile
  cases h : downloadStep force remote io f with
  | error e => rw [h] at hd; simpa using hd
  | ok io2 => rw [h] at hd; simpa [exceptIo] using hd

/-- In any mode the per-file handling preserves the existence flags of the
ledger and output files (it only ever appends content). -/
theorem procFile_exists (force jd : Bool) (remote : Remote) (proj : String)
    (io : IoSt) (f : String) :
    SameExists io.fs (exceptIo (procFile force jd remote proj io f)).fs := by
  have hd := SameExists_of (downloadStep_fs force remote io f)
  unfold procFile
  cases h : downloadStep force remote io f with
  | error e => rw [h] at hd; simpa using hd
  | ok io2 =>
    rw [h] at hd
    have hde : SameExists io.fs io2.fs := hd
    cases jd with
    | true => simpa using hde
    | false =>
      cases hp : processBatch proj.data (remote.fileLines f) with
      | error e =>
        cases e <;> simp [hp, exceptIo] <;> exact hde
      | ok outs =>
        simp [hp, exceptIo]
        exact SameExists_trans hde ⟨rfl, rfl⟩

/-- The per-file loop, download-only mode: ledger and output files
untouched. -/
theorem runFiles_frame_jd (force : Bool) (remote : Remote) (proj : String) :
    ∀ (files : List String) (io : IoSt),
      SameTmpFst io.fs (exceptIo (runFiles force true remote proj files io)).fs := by
  intro files
  induction files with
  | nil => intro io; exact SameTmpFst_refl _
  | cons f rest ih =>
    intro io
    have h1 := procFile_frame_jd force remote proj io f
    unfold runFiles
    cases h : procFile force true remote proj io f with
    | error e => rw [h] at h1; simpa using h1
    | ok io' =>
      rw [h] at h1
      exact SameTmpFst_trans (by simpa using h1) (ih io')

/-- The per-file loop preserves the existence flags in any mode. -/
theorem runFiles_exists (force jd : Bool) (remote : Remote) (proj : String) :
    ∀ (files : List String) (io : IoSt),
      SameExists io.fs (exceptIo (runFiles force jd remote proj files io)).fs := by
  intro files
  induction files with
  | nil => intro io; exact SameExists_refl _
  | cons f rest ih =>
    intro io
    have h1 := procFile_exists force jd remote proj io f
    unfold runFiles
    cases h : procFile force jd remote proj io f with
    | error e => rw [h] at h1; simpa using h1
    | ok io' =>
      rw [h] at h1
      exact SameExists_trans (by simpa using h1) (ih io')

/-- The project-listing step leaves the filesystem untouched (only the
network trace may grow). -/
theorem projListing_fs (resume : Bool) (remote : Remote) (previous : List String)
    (proj : String) (io0 : IoSt) :
    (exceptIoL (projListing resume remote previous proj io0)).fs = io0.fs := by
  unfold projListing
  repeat' split
  all_goals dsimp only
  repeat' split
  all_goals rfl

/-- Unfolding of `procProject` on a listing failure. -/
theorem procProject_eq_listing_error (force jd resume : Bool) (remote : Remote)
    (previous : List String) (st : LoopSt) (proj : String) (k : Abort) (io : IoSt)
    (h : projListing resume remote previous proj ⟨st.fs, st.net⟩ = .error (k, io)) :
    procProject force jd resume remote previous st proj =
      .error (k, ⟨io.fs, io.net, st.processed, st.ledgerWrites⟩) := by
  unfold procProject
  rw [h]

/-- Unfolding of `procProject` on a per-file failure. -/
theorem procProject_eq_files_error (force jd resume : Bool) (remote : Remote)
    (previous : List String) (st : LoopSt) (proj : String)
    (td : List String) (io1 : IoSt) (k : Abort) (io : IoSt)
    (h1 : projListing resume remote previous proj ⟨st.fs, st.net⟩ = .ok (td, io1))
    (h2 : runFiles force jd remote proj td io1 = .error (k, io)) :
    procProject force jd resume remote previous st proj =
      .error (k, ⟨io.fs, io.net, st.processed, st.ledgerWrites⟩) := by
  unfold procProject
  rw [h1]
  dsimp only
  rw [h2]

/-- Unfolding of `procProject` on success. -/
theorem procProject_eq_ok (force jd resume : Bool) (remote : Remote)
    (previous : List String) (st : LoopSt) (proj : String)
    (td : List String) (io1 io2 : IoSt)
    (h1 : projListing resume remote previous proj ⟨st.fs, st.net⟩ = .ok (td, io1))
    (h2 : runFiles force jd remote proj td io1 = .ok io2) :
    procProject force jd resume remote previous st proj =
      .ok ⟨writeTmp jd io2.fs (proj ++ "\n"), io2.net,
           st.processed ++ [proj], st.ledgerWrites ++ [proj ++ "\n"]⟩ := by
  unfold procProject
  rw [h1]
  dsimp only
  rw [h2]

/-- One project's handling, download-only mode: ledger and output files
untouched. -/
theorem procProject_frame_jd (force resume : Bool) (remote : Remote)
    (previous : List String) (st : LoopSt) (proj : String) :
    SameTmpFst st.fs (exceptSt (procProject force true resume remote previous st proj)).fs := by
  have hfs := projListing_fs resume remote previous proj ⟨st.fs, st.net⟩
  cases hl : projListing resume remote previous proj ⟨st.fs, st.net⟩ with
  | error ki =>
    obtain ⟨k, io⟩ := ki
    rw [hl] at hfs
    rw [procProject_eq_listing_error force true resume remote previous st proj k io hl]
    simp only [exceptIoL] at hfs
    simp only [exceptSt]
    rw [hfs]
    exact SameTmpFst_refl _
  | ok p =>
    obtain ⟨td, io1⟩ := p
    rw [hl] at hfs
    simp only [exceptIoL] at hfs
    have hrf := runFiles_frame_jd force remote proj td io1
    cases hr : runFiles force true remote proj td io1 with
    | error ki =>
      obtain ⟨k, io⟩ := ki
      rw [hr] at hrf
      rw [procProject_eq_files_error force true resume remote previous st proj td io1 k io hl hr]
      simp only [exceptIo] at hrf
      simp only [exceptSt]
      rw [← hfs]
      exact hrf
    | ok io2 =>
      rw [hr] at hrf
      rw [procProject_eq_ok force true resume remote previous st proj td io1 io2 hl hr]
      simp only [exceptIo] at hrf
      simp only [exceptSt, writeTmp]
      rw [← hfs]
      simpa using hrf

/-- One project's handling preserves the existence flags in any mode. -/
theorem procProject_exists (force jd resume : Bool) (remote : Remote)
    (previous : List String) (st : LoopSt) (proj : String) :
    SameExists st.fs (exceptSt (procProject force jd resume remote previous st proj)).fs := by
  have hfs := projListing_fs resume remote previous proj ⟨st.fs, st.net⟩
  cases hl : projListing resume remote previous proj ⟨st.fs, st.net⟩ with
  | error ki =>
    obtain ⟨k, io⟩ := ki
    rw [hl] at hfs
    rw [procProject_eq_listing_error force jd resume remote previous st proj k io hl]
    simp only [exceptIoL] at hfs
    simp only [exceptSt]
    rw [hfs]
    exact SameExists_refl _
  | ok p =>
    obtain ⟨td, io1⟩ := p
    rw [hl] at hfs
    simp only [exceptIoL] at hfs
    have hrf := runFiles_exists force jd remote proj td io1
    cases hr : runFiles force jd remote proj td io1 with
    | error ki =>
      obtain ⟨k, io⟩ := ki
      rw [hr] at hrf
      rw [procProject_eq_files_error force jd resume remote previous st proj td io1 k io hl hr]
      simp only [exceptIo] at hrf
      simp only [exceptSt]
      rw [← hfs]
      exact hrf
    | ok io2 =>
      rw [hr] at hrf
      rw [procProject_eq_ok force jd resume remote previous st proj td io1 io2 hl hr]
      simp only [exceptIo] at hrf
      simp only [exceptSt]
      rw [← hfs]
      refine SameExists_trans hrf ?_
      cases jd <;> simp [writeTmp, SameExists]

/-- The fields appended by a successful `procProject`. -/
theorem procProject_ok_fields (force jd resume : Bool) (remote : Remote)
    (previous : List String) (st : LoopSt) (proj : String) (st' : LoopSt)
    (h : procProject force jd resume remote previous st proj = .ok st') :
    st'.processed = st.processed ++ [proj] ∧
    st'.ledgerWrites = st.ledgerWrites ++ [proj ++ "\n"] := by
  cases hl : projListing resume remote previous proj ⟨st.fs, st.net⟩ with
  | error ki =>
    obtain ⟨k, io⟩ := ki
    rw [procProject_eq_listing_error force jd resume remote previous st proj k io hl] at h
    cases h
  | ok p =>
    obtain ⟨td, io1⟩ := p
    cases hr : runFiles force jd remote proj td io1 with
    | error ki =>
      obtain ⟨k, io⟩ := ki
      rw [procProject_eq_files_error force jd resume remote previous st proj td io1 k io hl hr] at h
      cases h
    | ok io2 =>
      rw [procProject_eq_ok force jd resume remote previous st proj td io1 io2 hl hr] at h
      obtain rfl := Except.ok.inj h
      exact ⟨rfl, rfl⟩

/-- Any project appearing in the processed list after one `procProject` step
was already processed or is the step's own project. -/
theorem procProject_mem (force jd resume : Bool) (remote : Remote)
    (previous : List String) (st : LoopSt) (proj : String) (p : String)
    (hp : p ∈ (exceptSt (procProject force jd resume remote previous st proj)).processed) :
    p ∈ st.processed ∨ p = proj := by
  cases hl : projListing resume remote previous proj ⟨st.fs, st.net⟩ with
  | error ki =>
    obtain ⟨k, io⟩ := ki
    rw [procProject_eq_listing_error force jd resume remote previous st proj k io hl] at hp
    simp only [exceptSt] at hp
    exact Or.inl hp
  | ok pr =>
    obtain ⟨td, io1⟩ := pr
    cases hr : runFiles force jd remote proj td io1 with
    | error ki =>
      obtain ⟨k, io⟩ := ki
      rw [procProject_eq_files_error force jd resume remote previous st proj td io1 k io hl hr] at hp
      simp only [exceptSt] at hp
      exact Or.inl hp
    | ok io2 =>
      rw [procProject_eq_ok force jd resume remote previous st proj td io1 io2 hl hr] at hp
      simp only [exceptSt] at hp
      rcases List.mem_append.mp hp with h | h
      · exact Or.inl h
      · exact Or.inr (List.mem_singleton.mp h)

/-- The project loop, download-only mode: ledger and output files
untouched. -/
theorem runProjects_frame_jd (force resume : Bool) (remote : Remote)
    (previous : List String) :
    ∀ (work : List String) (st : LoopSt),
      SameTmpFst st.fs (exceptSt (runProjects force true resume remote previous work st)).fs := by
  intro work
  induction work with
  | nil => intro st; exact SameTmpFst_refl _
  | cons p rest ih =>
    intro st
    have h1 := procProject_frame_jd force resume remote previous st p
    unfold runProjects
    cases h : procProject force true resume remote previous st p with
    | error e => rw [h] at h1; simpa using h1
    | ok st' =>
      rw [h] at h1
      exact SameTmpFst_trans (by simpa [exceptSt] using h1) (ih st')

/-- The project loop preserves the existence flags in any mode. -/
theorem runProjects_exists (force jd resume : Bool) (remote : Remote)
    (previous : List String) :
    ∀ (work : List String) (st : LoopSt),
      SameExists st.fs (exceptSt (runProjects force jd resume remote previous work st)).fs := by
  intro work
  induction work with
  | nil => intro st; exact SameExists_refl _
  | cons p rest ih =>
    intro st
    have h1 := procProject_exists force jd resume remote previous st p
    unfold runProjects
    cases h : procProject force jd resume remote previous st p with
    | error e => rw [h] at h1; simpa using h1
    | ok st' =>
      rw [h] at h1
      exact SameExists_trans (by simpa [exceptSt] using h1) (ih st')

/-- Any project processed by the loop was already processed or belongs to
the work list. -/
theorem runProjects_mem (force jd resume : Bool) (remote : Remote)
    (previous : List String) :
    ∀ (work : List String) (st : LoopSt) (p : String),
      p ∈ (exceptSt (runProjects force jd resume remote previous work st)).processed →
      p ∈ st.processed ∨ p ∈ work := by
  intro work
  induction work with
  | nil => intro st p hp; exact Or.inl (by simpa [exceptSt] using hp)
  | cons q rest ih =>
    intro st p hp
    unfold runProjects at hp
    cases h : procProject force jd resume remote previous st q with
    | error e =>
      rw [h] at hp
      have := procProject_mem force jd resume remote previous st q p (by rw [h]; simpa using hp)
      rcases this with h1 | h1
      · exact Or.inl h1
      · exact Or.inr (by simp [h1])
    | ok st' =>
      rw [h] at hp
      rcases ih st' p (by simpa using hp) with h1 | h1
      · have := procProject_mem force jd resume remote previous st q p (by rw [h]; simpa [exceptSt] using h1)
        rcases this with h2 | h2
        · exact Or.inl h2
        · exact Or.inr (by simp [h2])
      · exact Or.inr (by simp [h1])

/-- A successful project loop appends exactly the work list (in order) to
the processed list, and mirrors it in the ledger writes. -/
theorem runProjects_ok_fields (force jd resume : Bool) (remote : Remote)
    (previous : List String) :
    ∀ (work : List String) (st st' : LoopSt),
      runProjects force jd resume remote previous work st = .ok st' →
      st'.processed = st.processed ++ work ∧
      st'.ledgerWrites = st.ledgerWrites ++ work.map (fun p => p ++ "\n") := by
  intro work
  induction work with
  | nil =>
    intro st st' h
    obtain rfl := Except.ok.inj h
    simp
  | cons q rest ih =>
    intro st st' h
    unfold runProjects at h
    cases hq : procProject force jd resume remote previous st q with
    | error e => rw [hq] at h; cases h
    | ok st1 =>
      rw [hq] at h
      obtain ⟨hp1, hl1⟩ := procProject_ok_fields force jd resume remote previous st q st1 hq
      obtain ⟨hp2, hl2⟩ := ih st1 st' h
      constructor
      · rw [hp2, hp1]; simp
      · rw [hl2, hl1]; simp

/-- Inversion of a startup check that proceeds: the ledger entries the run
will trust are all in `parsed`, and the files surviving into `fs1` are the
original files (force may have deleted one of them, never altered one). -/
theorem startupCheck_proceed (force jd resume : Bool) (fs : FsState)
    (parsed : List String) (fs1 : FsState)
    (h : startupCheck force jd resume fs = .proceed parsed fs1) :
    (∀ q, q ∈ ledgerIds fs1 → q ∈ parsed) ∧
    (fs1.tmpExists = true → fs.tmpExists = true ∧ fs1.tmpContent = fs.tmpContent) ∧
    (fs1.fstExists = true → fs.fstExists = true ∧ fs1.fstContent = fs.fstContent) := by
  unfold startupCheck at h
  split at h
  · -- ledger file exists
    rename_i ht
    split at h
    · -- force: ledger removed
      cases h
      refine ⟨?_, ?_, ?_⟩
      · intro q hq; simp [ledgerIds] at hq
      · intro hx; simp at hx
      · intro hx; exact ⟨hx, rfl⟩
    · split at h
      · -- download-only: ledger read and kept
        cases h
        refine ⟨?_, fun hx => ⟨hx, rfl⟩, fun hx => ⟨hx, rfl⟩⟩
        intro q hq
        simpa [ledgerIds, ht] using hq
      · split at h
        · -- resume
          dsimp only at h
          split at h
          · cases h
          · cases h
            refine ⟨?_, fun hx => ⟨hx, rfl⟩, fun hx => ⟨hx, rfl⟩⟩
            intro q hq
            simpa [ledgerIds, ht] using hq
        · cases h
  · -- no ledger file
    rename_i ht
    split at h
    · split at h
      · -- force: output removed
        cases h
        refine ⟨?_, ?_, ?_⟩
        · intro q hq; simp [ledgerIds, ht] at hq
        · intro hx; exact ⟨by simpa using hx, rfl⟩
        · intro hx; simp at hx
      · cases h
    · -- fresh state
      cases h
      refine ⟨?_, fun hx => ⟨hx, rfl⟩, fun hx => ⟨hx, rfl⟩⟩
      intro q hq
      simp [ledgerIds, ht] at hq

/-- Unfolding of `runPipeline` when the startup check proceeds and no work
remains (line 219: exit 0 after the HTTP lookup, before any FTP contact). -/
theorem runPipeline_eq_nowork (force jd resume reverse : Bool) (remote : Remote)
    (fs0 : FsState) (parsed : List String) (fs1 : FsState)
    (hsc : startupCheck force jd resume fs0 = .proceed parsed fs1)
    (he : (remote.projects.filter (fun p => decide (p ∉ parsed))).isEmpty = true) :
    runPipeline force jd resume reverse remote fs0 =
      ⟨.success, ⟨fs1, [NetOp.httpProjectList], [], []⟩⟩ := by
  unfold runPipeline
  rw [hsc]
  dsimp only
  rw [he]
  simp only [if_true]

/-- Unfolding of `runPipeline` when the startup check proceeds and work
remains: the result is the project loop's outcome. -/
theorem runPipeline_eq_loop (force jd resume reverse : Bool) (remote : Remote)
    (fs0 : FsState) (parsed : List String) (fs1 : FsState)
    (hsc : startupCheck force jd resume fs0 = .proceed parsed fs1)
    (hb : (remote.projects.filter (fun p => decide (p ∉ parsed))).isEmpty = false) :
    runPipeline force jd resume reverse remote fs0 =
      (match runProjects force jd resume remote
              (fs0.disk.filter (fun f => pyEndswith FSA_WGS_END.data f.data))
              (pySort reverse (remote.projects.filter (fun p => decide (p ∉ parsed))))
              ⟨(if jd then fs1 else { fs1 with tmpExists := true, fstExists := true }),
               [NetOp.httpProjectList], [], []⟩ with
        | .error (k, st) => ⟨.aborted k, st⟩
        | .ok st =>
          if jd then ⟨.success, st⟩
          else ⟨.success, { st with fs := { st.fs with tmpExists := false, tmpContent := [] } }⟩) := by
  unfold runPipeline
  rw [hsc]
  dsimp only
  rw [hb]
  simp only [Bool.false_eq_true, if_false]

/-- The two possible shapes of a run that reaches the project loop. -/
theorem runPipeline_loop_cases (force jd resume reverse : Bool) (remote : Remote)
    (fs0 : FsState) (parsed : List String) (fs1 : FsState)
    (hsc : startupCheck force jd resume fs0 = .proceed parsed fs1)
    (hb : (remote.projects.filter (fun p => decide (p ∉ parsed))).isEmpty = false) :
    (∃ k st,
      runProjects force jd resume remote
          (fs0.disk.filter (fun f => pyEndswith FSA_WGS_END.data f.data))
          (pySort reverse (remote.projects.filter (fun p => decide (p ∉ parsed))))
          ⟨(if jd then fs1 else { fs1 with tmpExists := true, fstExists := true }),
           [NetOp.httpProjectList], [], []⟩ = .error (k, st) ∧
      runPipeline force jd resume reverse remote fs0 = ⟨.aborted k, st⟩) ∨
    (∃ st,
      runProjects force jd resume remote
          (fs0.disk.filter (fun f => pyEndswith FSA_WGS_END.data f.data))
          (pySort reverse (remote.projects.filter (fun p => decide (p ∉ parsed))))
          ⟨(if jd then fs1 else { fs1 with tmpExists := true, fstExists := true }),
           [NetOp.httpProjectList], [], []⟩ = .ok st ∧
      runPipeline force jd resume reverse remote fs0 =
        (if jd then ⟨.success, st⟩
         else ⟨.success, { st with fs := { st.fs with tmpExists := false, tmpContent := [] } }⟩)) := by
  have heq := runPipeline_eq_loop force jd resume reverse remote fs0 parsed fs1 hsc hb
  cases hr : runProjects force jd resume remote
      (fs0.disk.filter (fun f => pyEndswith FSA_WGS_END.data f.data))
      (pySort reverse (remote.projects.filter (fun p => decide (p ∉ parsed))))
      ⟨(if jd then fs1 else { fs1 with tmpExists := true, fstExists := true }),
       [NetOp.httpProjectList], [], []⟩ with
  | error e =>
    obtain ⟨k, st⟩ := e
    rw [hr] at heq
    exact Or.inl ⟨k, st, rfl, heq⟩
  | ok st =>
    rw [hr] at heq
    exact Or.inr ⟨st, rfl, heq⟩

/-! ### Claim theorems: startup state coupling -/

/-- C3 amended: in normal and resume mode (not force, not download-only), a
non-empty ledger without the output file is rejected at startup with its
fatal error (exit 1 under resume, exit 2 otherwise), before any network
operation and with the filesystem untouched. -/
theorem ledger_output_coupling (resume reverse : Bool) (remote : Remote) (fs0 : FsState)
    (h1 : fs0.tmpExists = true) (h2 : fs0.tmpContent ≠ []) (h3 : fs0.fstExists = false) :
    runPipeline false false resume reverse remote fs0 =
      ⟨.aborted (.fatal (if resume then exitCode .staleTmpNoFasta
                         else exitCode .staleTmpNoFlag)),
       ⟨fs0, [], [], []⟩⟩ := by
  have hsc : startupCheck false false resume fs0 = .fatal (if resume then 1 else 2) := by
    cases resume with
    | false => simp [startupCheck, h1]
    | true => simp [startupCheck, h1, h2, h3, List.map_eq_nil_iff]
  unfold runPipeline
  rw [hsc]
  cases resume <;> rfl

/-- Witness for `ledger_output_coupling` at a concrete stale state in
resume mode. -/
theorem ledger_output_coupling_witness :
    runPipeline false false true false remoteOne ⟨true, ["AAAA01\n"], false, [], []⟩ =
      ⟨.aborted (.fatal (exitCode .staleTmpNoFasta)),
       ⟨⟨true, ["AAAA01\n"], false, [], []⟩, [], [], []⟩⟩ :=
  ledger_output_coupling true false remoteOne ⟨true, ["AAAA01\n"], false, [], []⟩ rfl
    (by decide) rfl

/-- C3 counterexample: in download-only mode (not force) the same stale
state -- non-empty ledger, no output file -- is NOT rejected: the run reads
the ledger, performs the HTTP project lookup and terminates successfully. -/
theorem downloadOnly_coupling_unchecked :
    (runPipeline false true false false remoteOne
        ⟨true, ["AAAA01\n"], false, [], []⟩).exit = .success ∧
    (runPipeline false true false false remoteOne
        ⟨true, ["AAAA01\n"], false, [], []⟩).st.net = [NetOp.httpProjectList] :=
  ⟨rfl, rfl⟩

/-! ### Claim theorems: processing order -/

/-- The lexicographic string order is total. -/
theorem lexLe_total : ∀ a b : List Char, lexLe a b = true ∨ lexLe b a = true
  | [], _ => Or.inl rfl
  | _ :: _, [] => Or.inr rfl
  | a :: as1, b :: bs => by
    by_cases hab : a = b
    · subst hab
      rcases lexLe_total as1 bs with h | h
      · exact Or.inl (by simp [lexLe, h])
      · exact Or.inr (by simp [lexLe, h])
    · rcases lt_trichotomy a b with h | h | h
      · exact Or.inl (by simp [lexLe, hab, h])
      · exact absurd h hab
      · exact Or.inr (by simp [lexLe, Ne.symm hab, h])

/-- The lexicographic string order is transitive. -/
theorem lexLe_trans : ∀ a b c : List Char,
    lexLe a b = true → lexLe b c = true → lexLe a c = true
  | [], _, _ => fun _ _ => rfl
  | _ :: _, [], _ => fun h _ => by cases h
  | _ :: _, _ :: _, [] => fun _ h => by cases h
  | a :: as1, b :: bs, c :: cs => fun h1 h2 => by
    by_cases hab : a = b <;> by_cases hbc : b = c
    · subst hab; subst hbc
      simp only [lexLe, if_pos rfl] at h1 h2 ⊢
      exact lexLe_trans as1 bs cs h1 h2
    · subst hab
      simp only [lexLe, if_neg hbc] at h2
      have hlt : a < c := of_decide_eq_true h2
      simp [lexLe, ne_of_lt hlt, hlt]
    · subst hbc
      simp only [lexLe, if_neg hab] at h1
      have hlt : a < b := of_decide_eq_true h1
      simp [lexLe, ne_of_lt hlt, hlt]
    · simp only [lexLe, if_neg hab] at h1
      simp only [lexLe, if_neg hbc] at h2
      have hlt : a < c := lt_trans (of_decide_eq_true h1) (of_decide_eq_true h2)
      simp [lexLe, ne_of_lt hlt, hlt]

/-- C7: starting from a fresh state, a successful run processes exactly the
remote project list in sorted order -- ascending, or descending under the
reverse flag -- and appends the identifiers to the ledger in exactly the
order of processing completion; the sort is genuinely sorted in the claimed
direction, and on `["AAAA01", "BBBB01", "CCCC01"]` it yields the claimed
concrete orders. -/
theorem projects_processed_sorted (force jd resume reverse : Bool)
    (remote : Remote) (fs0 : FsState)
    (h1 : fs0.tmpExists = false) (h2 : fs0.fstExists = false)
    (hs : (runPipeline force jd resume reverse remote fs0).exit = .success) :
    (runPipeline force jd resume reverse remote fs0).st.processed =
      pySort reverse remote.projects ∧
    (runPipeline force jd resume reverse remote fs0).st.ledgerWrites =
      (pySort reverse remote.projects).map (fun p => p ++ "\n") ∧
    List.Sorted (fun a b : String => pyStrLe a b = true) (pySort false remote.projects) ∧
    List.Sorted (fun a b : String => pyStrLe b a = true) (pySort true remote.projects) ∧
    pySort false ["AAAA01", "BBBB01", "CCCC01"] = ["AAAA01", "BBBB01", "CCCC01"] ∧
    pySort true ["AAAA01", "BBBB01", "CCCC01"] = ["CCCC01", "BBBB01", "AAAA01"] := by
  have hsc : startupCheck force jd resume fs0 = .proceed [] fs0 := by
    unfold startupCheck
    simp [h1, h2]
  have hw : remote.projects.filter (fun p => decide (p ∉ ([] : List String)))
      = remote.projects := by
    simp
  have hmain : (runPipeline force jd resume reverse remote fs0).st.processed =
      pySort reverse remote.projects ∧
      (runPipeline force jd resume reverse remote fs0).st.ledgerWrites =
      (pySort reverse remote.projects).map (fun p => p ++ "\n") := by
    by_cases hempty :
        (remote.projects.filter (fun p => decide (p ∉ ([] : List String)))).isEmpty = true
    · have heq := runPipeline_eq_nowork force jd resume reverse remote fs0 [] fs0 hsc hempty
      have hnil : remote.projects = [] := by
        rw [hw] at hempty
        exact List.isEmpty_iff.mp hempty
      rw [heq, hnil]
      constructor <;> cases reverse <;> rfl
    · have hb : (remote.projects.filter
          (fun p => decide (p ∉ ([] : List String)))).isEmpty = false := by
        cases hx : (remote.projects.filter
            (fun p => decide (p ∉ ([] : List String)))).isEmpty
        · rfl
        · exact absurd hx hempty
      rcases runPipeline_loop_cases force jd resume reverse remote fs0 [] fs0 hsc hb with
        ⟨k, st, hr, heq⟩ | ⟨st, hr, heq⟩
      · rw [heq] at hs
        simp at hs
      · obtain ⟨hp, hl⟩ := runProjects_ok_fields force jd resume remote _ _ _ _ hr
        rw [hw] at hp hl
        rw [heq]
        cases jd <;> simp [hp, hl]
  refine ⟨hmain.1, hmain.2, ?_, ?_, rfl, rfl⟩
  · have instT : IsTotal String (fun a b : String => pyStrLe a b = true) :=
      ⟨fun a b => lexLe_total a.data b.data⟩
    have instR : IsTrans String (fun a b : String => pyStrLe a b = true) :=
      ⟨fun a b c => lexLe_trans a.data b.data c.data⟩
    simpa [pySort] using
      List.sorted_insertionSort (fun a b : String => pyStrLe a b = true) remote.projects
  · have instT : IsTotal String (fun a b : String => pyStrLe b a = true) :=
      ⟨fun a b => lexLe_total b.data a.data⟩
    have instR : IsTrans String (fun a b : String => pyStrLe b a = true) :=
      ⟨fun a b c h1 h2 => lexLe_trans c.data b.data a.data h2 h1⟩
    simpa [pySort] using
      List.sorted_insertionSort (fun a b : String => pyStrLe b a = true) remote.projects

/-- Witness for `projects_processed_sorted`: two projects given unsorted by
the remote are processed in ascending order. -/
theorem projects_processed_sorted_witness :
    (runPipeline false false false false remoteTwo fsFresh).st.processed =
      pySort false ["BBBB01", "AAAA01"] ∧
    pySort false ["BBBB01", "AAAA01"] = ["AAAA01", "BBBB01"] :=
  ⟨(projects_processed_sorted false false false false remoteTwo fsFresh rfl rfl rfl).1, rfl⟩

/-! ### Claim theorems: resume after completion -/

/-- C8 amended: a run (not download-only) that completes successfully with
at least one project processed deletes the ledger and keeps the output
file, so a second run with resume enabled -- whatever its remote world --
is rejected at startup with the output-without-ledger fatal error (exit 3),
before any network access and with the filesystem unchanged: it performs no
downloads and leaves the output byte-identical, but it is not a successful
no-op run. -/
theorem resume_rerun_rejected (force resume reverse reverse2 : Bool)
    (remote remote2 : Remote) (fs0 : FsState)
    (hs : (runPipeline force false resume reverse remote fs0).exit = .success)
    (hp : (runPipeline force false resume reverse remote fs0).st.processed ≠ []) :
    runPipeline false false true reverse2 remote2
        (runPipeline force false resume reverse remote fs0).st.fs =
      ⟨.aborted (.fatal (exitCode .staleFastaNoTmp)),
       ⟨(runPipeline force false resume reverse remote fs0).st.fs, [], [], []⟩⟩ := by
  cases hsc : startupCheck force false resume fs0 with
  | fatal c =>
    have habort : runPipeline force false resume reverse remote fs0 =
        ⟨.aborted (.fatal c), ⟨fs0, [], [], []⟩⟩ := by
      unfold runPipeline
      rw [hsc]
    rw [habort] at hs
    simp at hs
  | proceed parsed fs1 =>
    by_cases hempty :
        (remote.projects.filter (fun p => decide (p ∉ parsed))).isEmpty = true
    · rw [runPipeline_eq_nowork force false resume reverse remote fs0 parsed fs1 hsc hempty]
        at hp
      simp at hp
    · have hb : (remote.projects.filter
          (fun p => decide (p ∉ parsed))).isEmpty = false := by
        cases hx : (remote.projects.filter (fun p => decide (p ∉ parsed))).isEmpty
        · rfl
        · exact absurd hx hempty
      rcases runPipeline_loop_cases force false resume reverse remote fs0 parsed fs1 hsc hb
        with ⟨k, st, hr, heq⟩ | ⟨st, hr, heq⟩
      · rw [heq] at hs
        simp at hs
      · simp only [Bool.false_eq_true, if_false] at heq
        have hex := runProjects_exists force false resume remote
          (fs0.disk.filter (fun f => pyEndswith FSA_WGS_END.data f.data))
          (pySort reverse (remote.projects.filter (fun p => decide (p ∉ parsed))))
          ⟨(if false = true then fs1 else { fs1 with tmpExists := true, fstExists := true }),
           [NetOp.httpProjectList], [], []⟩
        rw [hr] at hex
        have hfst : st.fs.fstExists = true := by
          simpa [exceptSt] using hex.2
        have hsc2 : startupCheck false false true
            { st.fs with tmpExists := false, tmpContent := [] } = .fatal 3 := by
          unfold startupCheck
          simp [hfst]
        rw [heq]
        dsimp only
        unfold runPipeline
        rw [hsc2]
        rfl

/-- Witness for `resume_rerun_rejected` at a concrete completed run. -/
theorem resume_rerun_rejected_witness :
    runPipeline false false true false remoteOne
        (runPipeline false false false false remoteOne fsFresh).st.fs =
      ⟨.aborted (.fatal (exitCode .staleFastaNoTmp)),
       ⟨(runPipeline false false false false remoteOne fsFresh).st.fs, [], [], []⟩⟩ :=
  resume_rerun_rejected false false false false remoteOne remoteOne fsFresh rfl (by decide)

/-- C8 counterexample: after a completed run, the resume re-run does not
terminate successfully (it aborts at startup with exit 3), so the re-run is
not the successful no-op the claim describes. -/
theorem resume_rerun_not_noop :
    (runPipeline false false false false remoteOne fsFresh).exit = .success ∧
    (runPipeline false false true false remoteOne
        (runPipeline false false false false remoteOne fsFresh).st.fs).exit =
      .aborted (.fatal 3) ∧
    ExitKind.aborted (.fatal 3) ≠ .success :=
  ⟨rfl, rfl, by decide⟩

/-! ### Claim theorems: download-only mode frame -/

/-- Sorting neither adds nor invents projects. -/
theorem pySort_subset (reverse : Bool) (l : List String) :
    ∀ p, p ∈ pySort reverse l → p ∈ l := by
  intro p hp
  cases reverse with
  | false =>
    exact (List.perm_insertionSort (fun a b : String => pyStrLe a b = true) l).subset
      (by simpa [pySort] using hp)
  | true =>
    exact (List.perm_insertionSort (fun a b : String => pyStrLe b a = true) l).subset
      (by simpa [pySort] using hp)

/-- Core of the download-only frame property: over any work list whose
projects are not in `parsed`, the loop leaves the ledger/output files as
they were and records none of its completed projects in the ledger. -/
theorem download_only_frame_core (force resume : Bool) (remote : Remote)
    (previous work : List String) (fs1 : FsState) (parsed : List String)
    (hled : ∀ q, q ∈ ledgerIds fs1 → q ∈ parsed)
    (hwork : ∀ p, p ∈ work → p ∉ parsed)
    (st : LoopSt)
    (hres : exceptSt (runProjects force true resume remote previous work
              ⟨fs1, [NetOp.httpProjectList], [], []⟩) = st) :
    SameTmpFst fs1 st.fs ∧ (∀ p ∈ st.processed, p ∉ ledgerIds st.fs) := by
  subst hres
  have hframe := runProjects_frame_jd force resume remote previous work
    ⟨fs1, [NetOp.httpProjectList], [], []⟩
  refine ⟨hframe, ?_⟩
  intro p hp hq
  have hmem := runProjects_mem force true resume remote previous work
    ⟨fs1, [NetOp.httpProjectList], [], []⟩ p hp
  rcases hmem with h | h
  · simp at h
  · have hnp := hwork p h
    cases hex : (exceptSt (runProjects force true resume remote previous work
        ⟨fs1, [NetOp.httpProjectList], [], []⟩)).fs.tmpExists with
    | false =>
      unfold ledgerIds at hq
      rw [hex] at hq
      simp at hq
    | true =>
      have h1 : fs1.tmpExists = true := by rw [← hframe.1]; exact hex
      unfold ledgerIds at hq
      rw [hex] at hq
      simp only [if_pos] at hq
      rw [hframe.2.1] at hq
      have hin : p ∈ ledgerIds fs1 := by
        unfold ledgerIds
        rw [h1]
        simpa using hq
      exact hnp (hled p hin)

/-- C9: in download-only mode the real output FASTA file and the real
ledger file are never created and never have their content changed (both
append handles point at `/dev/null`): if either file exists after the run,
it existed before with identical content; and no project identifier
completed by the run is recorded in the ledger, so a later resume run
cannot skip it on that basis. -/
theorem download_only_frame (force resume reverse : Bool) (remote : Remote)
    (fs0 : FsState) :
    ((runPipeline force true resume reverse remote fs0).st.fs.tmpExists = true →
      fs0.tmpExists = true ∧
      (runPipeline force true resume reverse remote fs0).st.fs.tmpContent = fs0.tmpContent) ∧
    ((runPipeline force true resume reverse remote fs0).st.fs.fstExists = true →
      fs0.fstExists = true ∧
      (runPipeline force true resume reverse remote fs0).st.fs.fstContent = fs0.fstContent) ∧
    (∀ p ∈ (runPipeline force true resume reverse remote fs0).st.processed,
      p ∉ ledgerIds (runPipeline force true resume reverse remote fs0).st.fs) := by
  cases hsc : startupCheck force true resume fs0 with
  | fatal c =>
    have heq : runPipeline force true resume reverse remote fs0 =
        ⟨.aborted (.fatal c), ⟨fs0, [], [], []⟩⟩ := by
      unfold runPipeline
      rw [hsc]
    rw [heq]
    exact ⟨fun hx => ⟨hx, rfl⟩, fun hx => ⟨hx, rfl⟩, by simp⟩
  | proceed parsed fs1 =>
    obtain ⟨hled, htmp, hfst⟩ := startupCheck_proceed force true resume fs0 parsed fs1 hsc
    by_cases hempty :
        (remote.projects.filter (fun p => decide (p ∉ parsed))).isEmpty = true
    · rw [runPipeline_eq_nowork force true resume reverse remote fs0 parsed fs1 hsc hempty]
      exact ⟨htmp, hfst, by simp⟩
    · have hb : (remote.projects.filter
          (fun p => decide (p ∉ parsed))).isEmpty = false := by
        cases hx : (remote.projects.filter (fun p => decide (p ∉ parsed))).isEmpty
        · rfl
        · exact absurd hx hempty
      have hwork : ∀ p, p ∈ pySort reverse
          (remote.projects.filter (fun p => decide (p ∉ parsed))) → p ∉ parsed := by
        intro p hp
        have hmem := pySort_subset reverse _ p hp
        exact of_decide_eq_true (List.mem_filter.mp hmem).2
      rcases runPipeline_loop_cases force true resume reverse remote fs0 parsed fs1 hsc hb
        with ⟨k, st, hr, heq⟩ | ⟨st, hr, heq⟩
      · have hr2 : runProjects force true resume remote
            (fs0.disk.filter (fun f => pyEndswith FSA_WGS_END.data f.data))
            (pySort reverse (remote.projects.filter (fun p => decide (p ∉ parsed))))
            ⟨fs1, [NetOp.httpProjectList], [], []⟩ = .error (k, st) := hr
        have hr' : exceptSt (runProjects force true resume remote
            (fs0.disk.filter (fun f => pyEndswith FSA_WGS_END.data f.data))
            (pySort reverse (remote.projects.filter (fun p => decide (p ∉ parsed))))
            ⟨fs1, [NetOp.httpProjectList], [], []⟩) = st := by
          rw [hr2]
          rfl
        obtain ⟨hframe, hnot⟩ := download_only_frame_core force resume remote
          (fs0.disk.filter (fun f => pyEndswith FSA_WGS_END.data f.data))
          (pySort reverse (remote.projects.filter (fun p => decide (p ∉ parsed))))
          fs1 parsed hled hwork st hr'
        rw [heq]
        dsimp only
        refine ⟨?_, ?_, hnot⟩
        · intro hx
          have h1 := htmp (by rw [← hframe.1]; exact hx)
          exact ⟨h1.1, by rw [hframe.2.1, h1.2]⟩
        · intro hx
          have h1 := hfst (by rw [← hframe.2.2.1]; exact hx)
          exact ⟨h1.1, by rw [hframe.2.2.2, h1.2]⟩
      · have hr2 : runProjects force true resume remote
            (fs0.disk.filter (fun f => pyEndswith FSA_WGS_END.data f.data))
            (pySort reverse (remote.projects.filter (fun p => decide (p ∉ parsed))))
            ⟨fs1, [NetOp.httpProjectList], [], []⟩ = .ok st := hr
        have hr' : exceptSt (runProjects force true resume remote
            (fs0.disk.filter (fun f => pyEndswith FSA_WGS_END.data f.data))
            (pySort reverse (remote.projects.filter (fun p => decide (p ∉ parsed))))
            ⟨fs1, [NetOp.httpProjectList], [], []⟩) = st := by
          rw [hr2]
          rfl
        obtain ⟨hframe, hnot⟩ := download_only_frame_core force resume remote
          (fs0.disk.filter (fun f => pyEndswith FSA_WGS_END.data f.data))
          (pySort reverse (remote.projects.filter (fun p => decide (p ∉ parsed))))
          fs1 parsed hled hwork st hr'
        have heq2 : runPipeline force true resume reverse remote fs0 =
            ⟨ExitKind.success, st⟩ := heq
        rw [heq2]
        dsimp only
        refine ⟨?_, ?_, hnot⟩
        · intro hx
          have h1 := htmp (by rw [← hframe.1]; exact hx)
          exact ⟨h1.1, by rw [hframe.2.1, h1.2]⟩
        · intro hx
          have h1 := hfst (by rw [← hframe.2.2.1]; exact hx)
          exact ⟨h1.1, by rw [hframe.2.2.2, h1.2]⟩

/-- Witness for `download_only_frame`: a download-only run over a state
whose ledger lists an unrelated project leaves the ledger line intact, and
the project it completes is not recorded there. -/
theorem download_only_frame_witness :
    (runPipeline false true false false remoteOne
        ⟨true, ["ZZZZ01\n"], false, [], []⟩).st.fs.tmpContent = ["ZZZZ01\n"] ∧
    "AAAA01" ∈ (runPipeline false true false false remoteOne
        ⟨true, ["ZZZZ01\n"], false, [], []⟩).st.processed ∧
    "AAAA01" ∉ ledgerIds (runPipeline false true false false remoteOne
        ⟨true, ["ZZZZ01\n"], false, [], []⟩).st.fs :=
  ⟨((download_only_frame false false false remoteOne
      ⟨true, ["ZZZZ01\n"], false, [], []⟩).1 rfl).2,
   by decide,
   (download_only_frame false false false remoteOne
      ⟨true, ["ZZZZ01\n"], false, [], []⟩).2.2 "AAAA01" (by decide)⟩
